import Mathlib

/-!
Verification of the core of `e028_looper.py`: a polling copy daemon that
watches a source directory, waits for each file's size to settle, copies it
to a destination directory, verifies the copy by comparing checksums, and
records handled files in an append-only ledger file.

The embedding models the four core functions of the source —
`process_loop`, `put_into_logfile`, `already_copied`, `ready_for_copy` —
as pure Lean functions.  Filesystem effects are made explicit:

* the ledger file is `Option (List String)` (`none` = the file does not
  exist; `some recs` = the file holds one record per previously appended
  path, each stored on its own line);
* the two `os.path.getsize` calls of `ready_for_copy` are `Option Nat`
  results (`none` = the call raised `OSError`);
* `get_checksum` (MD5 of the file bytes) is an oracle: each candidate file
  carries the digest strings the two `get_checksum` calls would return;
* the observable actions of one pass (`ledger append`, `checksum of the
  source`, `shutil.copy`, `checksum of the destination`, the comparison)
  are recorded as an event trace, and `exit()` is an `aborted` flag that
  stops the enumeration.
-/

namespace Looper

/-- Python's substring test `needle in haystack` on strings
(`if filename in line:` in `already_copied`). -/
def pyIn (needle haystack : String) : Bool :=
  decide (needle.data <:+: haystack.data)

/-- Model of `f.readlines()` on the ledger file: every appended record was
written as `filename + "\n"`, so each returned line is the record followed
by a newline. -/
def readlines (recs : List String) : List String :=
  recs.map (fun r => r ++ "\n")

/-- Kinds of `OSError` that opening/reading the ledger can raise.  Both are
subclasses of Python's `OSError`. -/
inductive OSErrorKind where
  | fileNotFound
  | permissionDenied
deriving DecidableEq

/-- Outcome of `open(logfile, "r")` followed by `f.readlines()`:
either the list of lines, an `OSError` (of some kind), or an exception
that is not an `OSError`. -/
inductive ReadResult where
  | ok (lines : List String)
  | osError (k : OSErrorKind)
  | otherExc
deriving DecidableEq

/-- `already_copied(filename, logfile)` from the source, over the outcome
of the ledger read.  The `try` block catches `OSError` (every kind) and
returns `False`; any exception that is not an `OSError` propagates
(modelled as `Except.error`). -/
def already_copied (filename : String) (r : ReadResult) : Except Unit Bool :=
  match r with
  | .ok lines => .ok (lines.any (fun line => pyIn filename line))
  | .osError _ => .ok false
  | .otherExc => .error ()

/-- Reading the ledger file in the normal filesystem model: a missing file
raises `FileNotFoundError`; an existing file yields its lines. -/
def readLedger (ledger : Option (List String)) : ReadResult :=
  match ledger with
  | none => .osError .fileNotFound
  | some recs => .ok (readlines recs)

/-- `already_copied` as the Bool the caller sees when the ledger read does
not raise a non-`OSError` exception (which `readLedger` never produces). -/
def already_copiedB (filename : String) (ledger : Option (List String)) : Bool :=
  match already_copied filename (readLedger ledger) with
  | .ok b => b
  | .error _ => false

/-- `put_into_logfile(filename, logfile)`: `open(logfile, "a")` creates the
file when absent, then appends `filename + "\n"`. -/
def put_into_logfile (filename : String) (ledger : Option (List String)) :
    Option (List String) :=
  some (ledger.getD [] ++ [filename])

/-- `ready_for_copy(filename, sleeptime)` over the results of the two
`os.path.getsize` calls (taken `sleeptime` apart; the delay itself is not
modelled).  An `OSError` on either call is caught and yields `False`;
otherwise the two sizes are compared. -/
def ready_for_copy (s1 s2 : Option Nat) : Bool :=
  match s1 with
  | none => false
  | some a =>
    match s2 with
    | none => false
    | some b => a == b

/-- Model of `os.path.join(a, b)` for a relative second component `b`
(directory entries from `os.listdir` are bare names): the empty `a` yields
`b`; an `a` with a trailing separator is concatenated directly; otherwise a
separator is inserted. -/
def joinPath (a b : String) : String :=
  if a.data = [] then b
  else if a.data.getLast? = some '/' then a ++ b
  else a ++ "/" ++ b

/-- Per-file environment: what the filesystem answers during one pass over
this file.  `s1`, `s2` are the two `os.path.getsize` results inside
`ready_for_copy`; `cSrc` is `get_checksum(fullfilename)`; `cDst` is
`get_checksum(to_path + file)` as read after the `shutil.copy`. -/
structure FileEnv where
  s1 : Option Nat
  s2 : Option Nat
  cSrc : String
  cDst : String
deriving DecidableEq

/-- Observable actions of `process_loop`, in program order. -/
inductive Event where
  | append (p : String)
  | checksumSrc (p : String)
  | copy (src dst : String)
  | checksumDst (p : String)
  | compare (c1 c2 : String)
deriving DecidableEq

/-- Result of a (partial) pass: the ledger afterwards, the emitted events,
and whether `exit()` was reached (checksum mismatch). -/
structure Outcome where
  ledger : Option (List String)
  events : List Event
  aborted : Bool
deriving DecidableEq

/-- Actions of the copy branch of the `for` body, in program order:
`put_into_logfile`, `get_checksum(fullfilename)`, `shutil.copy`,
`get_checksum(to_path + file)` (plain string concatenation, as in the
source), then the comparison. -/
def trace (fp tp file : String) (e : FileEnv) : List Event :=
  [Event.append (joinPath fp file), Event.checksumSrc (joinPath fp file),
   Event.copy (joinPath fp file) tp, Event.checksumDst (tp ++ file),
   Event.compare e.cSrc e.cDst]

/-- Body of the `for` loop of `process_loop` for one directory entry
`file`: skip when `already_copied`, skip when not `ready_for_copy`;
otherwise append to the ledger, checksum the source, copy, checksum the
destination, compare, and `exit()` on mismatch. -/
def process_file (fp tp file : String) (e : FileEnv)
    (l : Option (List String)) : Outcome :=
  if already_copiedB (joinPath fp file) l then
    { ledger := l, events := [], aborted := false }
  else if ready_for_copy e.s1 e.s2 then
    if e.cSrc == e.cDst then
      { ledger := put_into_logfile (joinPath fp file) l,
        events := trace fp tp file e, aborted := false }
    else
      { ledger := put_into_logfile (joinPath fp file) l,
        events := trace fp tp file e, aborted := true }
  else
    { ledger := l, events := [], aborted := false }

/-- `process_loop(from_path, to_path, logfile, sleeptime)`: iterate
`process_file` over the `os.listdir` result; `exit()` (an aborted
outcome) terminates the whole process, so the remaining entries are not
visited. -/
def process_loop (fp tp : String) (files : List String)
    (env : String → FileEnv) (l : Option (List String)) : Outcome :=
  match files with
  | [] => { ledger := l, events := [], aborted := false }
  | f :: rest =>
    if (process_file fp tp f (env f) l).aborted then
      process_file fp tp f (env f) l
    else
      { ledger := (process_loop fp tp rest env
          (process_file fp tp f (env f) l).ledger).ledger,
        events := (process_file fp tp f (env f) l).events ++
          (process_loop fp tp rest env
            (process_file fp tp f (env f) l).ledger).events,
        aborted := (process_loop fp tp rest env
          (process_file fp tp f (env f) l).ledger).aborted }

/-- Environment of a file whose size is stable and whose destination
checksum disagrees with the source checksum (a corrupted copy). -/
def envBad : String → FileEnv :=
  fun _ => { s1 := some 5, s2 := some 5, cSrc := "aaa", cDst := "bbb" }

/-- Environment of a file whose size is stable and whose copy verifies. -/
def envGood : String → FileEnv :=
  fun _ => { s1 := some 5, s2 := some 5, cSrc := "h", cDst := "h" }

end Looper

namespace Looper

theorem pyIn_self_newline (p : String) : pyIn p (p ++ "\n") = true := by
  simp [pyIn]
  exact ⟨[], ['\n'], by simp⟩

theorem already_copiedB_none (p : String) : already_copiedB p none = false := rfl

theorem already_copiedB_some_iff (p : String) (recs : List String) :
    already_copiedB p (some recs) = true ↔
      ∃ r ∈ recs, pyIn p (r ++ "\n") = true := by
  simp [already_copiedB, readLedger, already_copied, readlines, List.any_eq_true]

theorem put_some (q : String) (recs : List String) :
    put_into_logfile q (some recs) = some (recs ++ [q]) := rfl

theorem mem_put (p q : String) (l : Option (List String))
    (h : already_copiedB p l = true) :
    already_copiedB p (put_into_logfile q l) = true := by
  cases l with
  | none => simp [already_copiedB_none] at h
  | some recs =>
    rw [already_copiedB_some_iff] at h
    rcases h with ⟨r, hr, hin⟩
    rw [put_some, already_copiedB_some_iff]
    exact ⟨r, List.mem_append_left _ hr, hin⟩

theorem mem_put_self (p : String) (l : Option (List String)) :
    already_copiedB p (put_into_logfile p l) = true := by
  cases l with
  | none =>
    rw [show put_into_logfile p none = some [p] from rfl, already_copiedB_some_iff]
    exact ⟨p, List.mem_singleton_self p, pyIn_self_newline p⟩
  | some recs =>
    rw [put_some, already_copiedB_some_iff]
    exact ⟨p, List.mem_append_right _ (List.mem_singleton_self p), pyIn_self_newline p⟩

theorem process_file_ledger (fp tp f : String) (e : FileEnv) (l : Option (List String)) :
    (process_file fp tp f e l).ledger = l ∨
    (process_file fp tp f e l).ledger = put_into_logfile (joinPath fp f) l := by
  unfold process_file
  split_ifs <;> first | exact Or.inl rfl | exact Or.inr rfl

theorem mem_process_file (p fp tp f : String) (e : FileEnv) (l : Option (List String))
    (h : already_copiedB p l = true) :
    already_copiedB p (process_file fp tp f e l).ledger = true := by
  rcases process_file_ledger fp tp f e l with h1 | h1 <;> rw [h1]
  · exact h
  · exact mem_put p _ l h

theorem mem_process_loop (p fp tp : String) (files : List String)
    (env : String → FileEnv) (l : Option (List String))
    (h : already_copiedB p l = true) :
    already_copiedB p (process_loop fp tp files env l).ledger = true := by
  induction files generalizing l with
  | nil => simpa [process_loop] using h
  | cons f rest ih =>
    rw [process_loop]
    split
    · exact mem_process_file p fp tp f (env f) l h
    · exact ih _ (mem_process_file p fp tp f (env f) l h)

end Looper

namespace Looper

theorem ready_of_static (s1 s2 : Option Nat) (h : s1 = s2) (h2 : s1.isSome = true) :
    ready_for_copy s1 s2 = true := by
  cases s1 with
  | none => simp at h2
  | some n => rw [← h]; simp [ready_for_copy]

theorem process_file_no_abort (fp tp f : String) (e : FileEnv)
    (l : Option (List String)) (h : e.cSrc = e.cDst) :
    (process_file fp tp f e l).aborted = false := by
  unfold process_file
  have hb : (e.cSrc == e.cDst) = true := beq_iff_eq.mpr h
  simp only [hb]
  split_ifs <;> rfl

theorem process_file_self_mem (fp tp f : String) (e : FileEnv)
    (l : Option (List String)) (hready : ready_for_copy e.s1 e.s2 = true) :
    already_copiedB (joinPath fp f) (process_file fp tp f e l).ledger = true := by
  unfold process_file
  split_ifs with h1 h2
  · exact h1
  · exact mem_put_self _ l
  · exact mem_put_self _ l

theorem process_loop_all_mem (fp tp : String) (files : List String)
    (env : String → FileEnv) (l : Option (List String))
    (hs : ∀ f ∈ files, (env f).s1 = (env f).s2 ∧ (env f).s1.isSome = true)
    (hc : ∀ f ∈ files, (env f).cSrc = (env f).cDst) :
    ∀ f ∈ files, already_copiedB (joinPath fp f)
      (process_loop fp tp files env l).ledger = true := by
  induction files generalizing l with
  | nil => intro f hf; exact absurd hf (List.not_mem_nil f)
  | cons g rest ih =>
    intro f hf
    rw [process_loop]
    rw [if_neg (by simp [process_file_no_abort fp tp g (env g) l
      (hc g (List.mem_cons_self g rest))])]
    rcases List.mem_cons.mp hf with rfl | hf2
    · exact mem_process_loop _ fp tp rest env _
        (process_file_self_mem fp tp f (env f) l
          (ready_of_static _ _ (hs f (List.mem_cons_self f rest)).1
            (hs f (List.mem_cons_self f rest)).2))
    · exact ih _ (fun x hx => hs x (List.mem_cons_of_mem g hx))
        (fun x hx => hc x (List.mem_cons_of_mem g hx)) f hf2

theorem process_loop_skip (fp tp : String) (files : List String)
    (env : String → FileEnv) (l : Option (List String))
    (h : ∀ f ∈ files, already_copiedB (joinPath fp f) l = true) :
    process_loop fp tp files env l =
      { ledger := l, events := [], aborted := false } := by
  induction files with
  | nil => rfl
  | cons g rest ih =>
    have hg := h g (List.mem_cons_self g rest)
    have hpf : process_file fp tp g (env g) l =
        { ledger := l, events := [], aborted := false } := by
      unfold process_file
      rw [if_pos hg]
    rw [process_loop, hpf]
    simp only [Bool.false_eq_true, if_false]
    rw [ih (fun x hx => h x (List.mem_cons_of_mem g hx))]
    rfl

end Looper

namespace Looper

/-- C6: `ready_for_copy` returns true iff both `os.path.getsize` reads
succeed and return the same size; any read failure (or differing sizes)
yields `false` rather than an error. -/
theorem C6_ready_for_copy_iff (s1 s2 : Option Nat) :
    ready_for_copy s1 s2 = true ↔ ∃ n, s1 = some n ∧ s2 = some n := by
  cases s1 with
  | none =>
    constructor
    · intro h; exact absurd h (by simp [ready_for_copy])
    · rintro ⟨n, h1, h2⟩; cases h1
  | some a =>
    cases s2 with
    | none =>
      constructor
      · intro h; exact absurd h (by simp [ready_for_copy])
      · rintro ⟨n, h1, h2⟩; cases h2
    | some b =>
      constructor
      · intro h
        have h' : (a == b) = true := h
        have hab : a = b := beq_iff_eq.mp h'
        exact ⟨a, rfl, by rw [hab]⟩
      · rintro ⟨n, h1, h2⟩
        have ha : a = n := Option.some_inj.mp h1
        have hb : b = n := Option.some_inj.mp h2
        show (a == b) = true
        rw [ha, hb]; exact beq_self_eq_true n

/-- C7: a missing ledger file is treated as empty: `already_copied`
catches the `FileNotFoundError` and returns `false` (it does not raise),
and the first `put_into_logfile` creates the ledger file. -/
theorem C7_missing_ledger (p : String) :
    already_copied p (readLedger none) = Except.ok false ∧
    already_copiedB p none = false ∧
    put_into_logfile p none = some [p] :=
  ⟨rfl, rfl, rfl⟩

/-- C8 counterexample: a `PermissionError` while opening an existing
ledger is an `OSError`, so `already_copied` catches it and returns
`false` (treating the ledger as empty) instead of letting it propagate. -/
theorem C8_permission_denied_swallowed :
    already_copied "in/a.bin" (ReadResult.osError OSErrorKind.permissionDenied) =
      Except.ok false := rfl

/-- C8 amended: every `OSError` raised by the ledger read — file-not-found
and permission-denied alike — is caught locally and turned into `false`;
only an exception that is not an `OSError` propagates out of
`already_copied`. -/
theorem C8_oserror_caught_other_propagates (p : String) (k : OSErrorKind) :
    already_copied p (ReadResult.osError k) = Except.ok false ∧
    already_copied p ReadResult.otherExc = Except.error () :=
  ⟨rfl, rfl⟩

end Looper

namespace Looper

/-- C1 (failing execution): with a single stable file whose destination
checksum differs from its source checksum, `process_loop` reaches
`exit()` — the copy was never verified — and yet the ledger contains a
record for the file, because `put_into_logfile` ran before the copy. -/
theorem C1_ledger_records_unverified_file :
    (process_loop "in/" "out/" ["a.bin"] envBad none).aborted = true ∧
    already_copiedB "in/a.bin"
      (process_loop "in/" "out/" ["a.bin"] envBad none).ledger = true := by
  decide

/-- C2 counterexample: `already_copied` uses Python's substring test
`filename in line`, so the path `"a/b"`, which was never appended, is
reported as already copied because it is a substring of the recorded path
`"a/bc"`. -/
theorem C2_substring_false_positive :
    already_copiedB "a/b" (some ["a/bc"]) = true ∧ "a/b" ∉ ["a/bc"] := by
  decide

/-- C2 amended: `already_copied` returns true iff the queried path is a
substring (Python `in`) of some recorded line, i.e. of a previously
appended record followed by its newline — not iff some record equals the
path exactly. -/
theorem C2_membership_is_substring_match (p : String) (recs : List String) :
    already_copiedB p (some recs) = true ↔
      ∃ r ∈ recs, pyIn p (r ++ "\n") = true :=
  already_copiedB_some_iff p recs

/-- C3: for a candidate that is not yet in the ledger and passes the
stability check, the per-file sequence is exactly: ledger append, source
checksum, byte copy, destination checksum, checksum comparison. -/
theorem C3_copy_verify_order (fp tp f : String) (e : FileEnv)
    (l : Option (List String))
    (hnot : already_copiedB (joinPath fp f) l = false)
    (hready : ready_for_copy e.s1 e.s2 = true) :
    (process_file fp tp f e l).events =
      [Event.append (joinPath fp f), Event.checksumSrc (joinPath fp f),
       Event.copy (joinPath fp f) tp, Event.checksumDst (tp ++ f),
       Event.compare e.cSrc e.cDst] := by
  unfold process_file
  rw [if_neg (by rw [hnot]; exact Bool.false_ne_true), if_pos hready]
  split_ifs <;> rfl

theorem C3_copy_verify_order_witness :
    (process_file "in/" "out/" "a.bin" (envGood "a.bin") none).events =
      [Event.append "in/a.bin", Event.checksumSrc "in/a.bin",
       Event.copy "in/a.bin" "out/", Event.checksumDst "out/a.bin",
       Event.compare "h" "h"] := by
  rw [C3_copy_verify_order "in/" "out/" "a.bin" (envGood "a.bin") none
    (by decide) (by decide)]
  decide

/-- C4 counterexample: in a concrete run over one fresh, stable,
correctly-copying file, the ledger append is the FIRST event of the pass
and the verifying comparison is the last — the entry is recorded before
CopyVerifier runs, not after it completes. -/
theorem C4_append_is_first_event :
    (process_file "in/" "out/" "a.bin" (envGood "a.bin") none).events.head? =
      some (Event.append "in/a.bin") ∧
    (process_file "in/" "out/" "a.bin" (envGood "a.bin") none).events.getLast? =
      some (Event.compare "h" "h") := by
  decide

/-- C4 amended: for every directory entry not yet in the ledger that
passes the stability probe, the scan cycle appends the entry to the
ledger first — before the copy-and-verify — and the resulting ledger is
exactly the old one with the entry appended. -/
theorem C4_append_before_copy_verify (fp tp f : String) (e : FileEnv)
    (l : Option (List String))
    (hnot : already_copiedB (joinPath fp f) l = false)
    (hready : ready_for_copy e.s1 e.s2 = true) :
    (process_file fp tp f e l).events.head? =
      some (Event.append (joinPath fp f)) ∧
    (process_file fp tp f e l).ledger = put_into_logfile (joinPath fp f) l := by
  unfold process_file
  rw [if_neg (by rw [hnot]; exact Bool.false_ne_true), if_pos hready]
  split_ifs <;> exact ⟨rfl, rfl⟩

theorem C4_append_before_copy_verify_witness :
    (process_file "in/" "out/" "a.bin" (envGood "a.bin") none).events.head? =
      some (Event.append "in/a.bin") ∧
    (process_file "in/" "out/" "a.bin" (envGood "a.bin") none).ledger =
      some ["in/a.bin"] := by
  have h := C4_append_before_copy_verify "in/" "out/" "a.bin" (envGood "a.bin")
    none (by decide) (by decide)
  exact ⟨by rw [h.1]; decide, by rw [h.2]; decide⟩

end Looper

namespace Looper

/-- C5: under the ledger and stability guards, a checksum mismatch makes
`process_loop` reach `exit()`: the pass is aborted and its events stop at
the mismatching file, with no retry and no further directory entries
visited; when the checksums agree the loop proceeds to the remaining
entries. -/
theorem C5_mismatch_fatal (fp tp f : String) (rest : List String)
    (env : String → FileEnv) (l : Option (List String))
    (hnot : already_copiedB (joinPath fp f) l = false)
    (hready : ready_for_copy (env f).s1 (env f).s2 = true) :
    ((env f).cSrc ≠ (env f).cDst →
      (process_loop fp tp (f :: rest) env l).aborted = true ∧
      (process_loop fp tp (f :: rest) env l).events =
        trace fp tp f (env f)) ∧
    ((env f).cSrc = (env f).cDst →
      (process_loop fp tp (f :: rest) env l).events =
        trace fp tp f (env f) ++
          (process_loop fp tp rest env
            (put_into_logfile (joinPath fp f) l)).events) := by
  constructor
  · intro hne
    have hpf : process_file fp tp f (env f) l =
        { ledger := put_into_logfile (joinPath fp f) l,
          events := trace fp tp f (env f), aborted := true } := by
      unfold process_file
      rw [if_neg (by rw [hnot]; exact Bool.false_ne_true), if_pos hready,
          if_neg (by simp [hne])]
    rw [process_loop, hpf]
    simp
  · intro heq
    have hpf : process_file fp tp f (env f) l =
        { ledger := put_into_logfile (joinPath fp f) l,
          events := trace fp tp f (env f), aborted := false } := by
      unfold process_file
      rw [if_neg (by rw [hnot]; exact Bool.false_ne_true), if_pos hready,
          if_pos (beq_iff_eq.mpr heq)]
    rw [process_loop, hpf]
    simp

theorem C5_mismatch_fatal_witness :
    (process_loop "in/" "out/" ["a.bin", "b.bin"] envBad none).aborted = true ∧
    (process_loop "in/" "out/" ["a.bin", "b.bin"] envBad none).events =
      trace "in/" "out/" "a.bin" (envBad "a.bin") :=
  (C5_mismatch_fatal "in/" "out/" "a.bin" ["b.bin"] envBad none (by decide)
    (by decide)).1 (by decide)

/-- C9: when the directory is static (both size probes of every file agree
and succeed) and every copy is faithful (source and destination checksums
agree), a second `process_loop` over the same entries starting from the
first run's ledger emits no events at all — no appends, no checksums, no
copies — and leaves the ledger unchanged: every entry is already a ledger
member after the first run. -/
theorem C9_second_run_no_work (fp tp : String) (files : List String)
    (env : String → FileEnv) (l0 : Option (List String))
    (hs : ∀ f ∈ files, (env f).s1 = (env f).s2 ∧ (env f).s1.isSome = true)
    (hc : ∀ f ∈ files, (env f).cSrc = (env f).cDst) :
    (process_loop fp tp files env
        (process_loop fp tp files env l0).ledger).events = [] ∧
    (process_loop fp tp files env
        (process_loop fp tp files env l0).ledger).ledger =
      (process_loop fp tp files env l0).ledger ∧
    ∀ f ∈ files, already_copiedB (joinPath fp f)
      (process_loop fp tp files env l0).ledger = true := by
  have hall := process_loop_all_mem fp tp files env l0 hs hc
  have hskip := process_loop_skip fp tp files env
    (process_loop fp tp files env l0).ledger hall
  exact ⟨by rw [hskip], by rw [hskip], hall⟩

theorem C9_second_run_no_work_witness :
    (process_loop "in/" "out/" ["a.bin", "b.bin"] envGood
        (process_loop "in/" "out/" ["a.bin", "b.bin"] envGood none).ledger).events
      = [] ∧
    already_copiedB "in/a.bin"
      (process_loop "in/" "out/" ["a.bin", "b.bin"] envGood none).ledger = true := by
  have h := C9_second_run_no_work "in/" "out/" ["a.bin", "b.bin"] envGood none
    (by decide) (by decide)
  refine ⟨h.1, ?_⟩
  have h2 := h.2.2 "a.bin" (by decide)
  rwa [show joinPath "in/" "a.bin" = "in/a.bin" from by decide] at h2

/-- C10: the path handed to the post-copy `get_checksum` is the plain
concatenation `to_path + file`; whenever `to_path` ends with the path
separator, that string equals `os.path.join(to_path, file)`, the
destination `shutil.copy` writes to, so the verification checksums the
file the copy produced. -/
theorem C10_concat_is_copy_destination (tp f : String)
    (h : tp.data.getLast? = some '/') :
    tp ++ f = joinPath tp f := by
  have hne : ¬ tp.data = [] := by
    intro hnil; rw [hnil] at h; simp at h
  unfold joinPath
  rw [if_neg hne, if_pos h]

theorem C10_concat_is_copy_destination_witness :
    ("out/" : String).data.getLast? = some '/' ∧
    "out/" ++ "a.bin" = joinPath "out/" "a.bin" :=
  ⟨by decide, C10_concat_is_copy_destination "out/" "a.bin" (by decide)⟩

end Looper
